import Mathlib

/-!
Verification of the GreenGen reward-accrual engine and admin-authorization
resolver. Definitions are shallow embeddings of the TypeScript sources
`src/utils/rewardUtils.ts`, `src/utils/adminUtils.ts` and `src/utils/dbUtils.ts`.
Remote-store interactions are modelled by explicit state passing (the relevant
tables) together with a fault record saying which remote call, if any, reports
an error; a thrown exception from the client library is a separate outcome
(`DbResult.thrown`) where the source catches it.
-/

namespace GreenGen

/-! ## Data model (spec §3, tables `token_transactions`, `user_tokens`, `admin_users`) -/

/-- One row of the `token_transactions` ledger, as inserted by
`updateUserTokensForReport` in `rewardUtils.ts`. -/
structure TokenTransaction where
  user_id : String
  amount : Nat
  description : String
  transaction_type : String
  source_type : String
deriving DecidableEq, Repr

/-- One row of the `user_tokens` table (balance and level columns). -/
structure UserTokens where
  balance : Nat
  level : Nat
deriving DecidableEq, Repr

/-- The slice of the relational store that the reward engine touches:
the append-only ledger and the `user_tokens` rows keyed by `user_id`. -/
structure DbState where
  transactions : List TokenTransaction
  user_tokens : List (String × UserTokens)
deriving DecidableEq, Repr

/-- Which of the four remote calls made by `updateUserTokensForReport`
report an error in a given run. -/
structure DbFaults where
  transactionInsertError : Bool
  tokensFetchError : Bool
  tokensInsertError : Bool
  tokensUpdateError : Bool
deriving DecidableEq, Repr

/-- A fault-free run: every remote call succeeds. -/
def noFaults : DbFaults := ⟨false, false, false, false⟩

/-- `SELECT balance, level FROM user_tokens WHERE user_id = u` (first matching
row; `user_id` is a unique key, spec §3). -/
def lookupTokens : List (String × UserTokens) → String → Option UserTokens
  | [], _ => none
  | p :: t, u => if p.1 = u then some p.2 else lookupTokens t u

/-- `UPDATE user_tokens SET ... WHERE user_id = u`: every row whose key
matches is overwritten with `v`. -/
def updateTokensRows : List (String × UserTokens) → String → UserTokens → List (String × UserTokens)
  | [], _, _ => []
  | p :: t, u, v => (if p.1 = u then (p.1, v) else p) :: updateTokensRows t u v

/-- Appending a ledger row (`supabase.from('token_transactions').insert`). -/
def insertTransaction (s : DbState) (tx : TokenTransaction) : DbState :=
  { s with transactions := s.transactions ++ [tx] }

/-! ## Reward accrual engine (`src/utils/rewardUtils.ts`) -/

/-- `getTokensForWasteSize` from `rewardUtils.ts`: the `switch` on the
waste-size string. -/
def getTokensForWasteSize (wasteSize : String) : Nat :=
  if wasteSize = "small" then 5
  else if wasteSize = "medium" then 15
  else if wasteSize = "large" then 30
  else 0

/-- The top-down first-match level thresholds, as written inline in the
update branch of `updateUserTokensForReport`. -/
def levelForBalance (balance : Nat) : Nat :=
  if balance ≥ 500 then 5
  else if balance ≥ 300 then 4
  else if balance ≥ 150 then 3
  else if balance ≥ 50 then 2
  else 1

/-- `updateUserTokensForReport(userId, wasteSize, reportTitle)` from
`rewardUtils.ts`. Returns the boolean result together with the store state
after the call. A remote call that errors performs no write; the `catch`
branches of the source return `false`. -/
def updateUserTokensForReport (userId wasteSize reportTitle : String)
    (f : DbFaults) (s : DbState) : Bool × DbState :=
  let tokenAmount := getTokensForWasteSize wasteSize
  if tokenAmount = 0 then
    (false, s)
  else if f.transactionInsertError then
    (false, s)
  else
    let s1 := insertTransaction s
      { user_id := userId, amount := tokenAmount,
        description := "Waste report: " ++ reportTitle,
        transaction_type := "earned", source_type := "waste_report" }
    if f.tokensFetchError then
      (false, s1)
    else
      match lookupTokens s1.user_tokens userId with
      | none =>
          if f.tokensInsertError then
            (false, s1)
          else
            (true, { s1 with user_tokens := s1.user_tokens ++
                [(userId,
                  { balance := tokenAmount,
                    level := if tokenAmount ≥ 50 then 2 else 1 })] })
      | some existing =>
          if f.tokensUpdateError then
            (false, s1)
          else
            let newBalance := existing.balance + tokenAmount
            let newRow : UserTokens :=
              { balance := newBalance,
                level :=
                  if newBalance ≥ 500 then 5
                  else if newBalance ≥ 300 then 4
                  else if newBalance ≥ 150 then 3
                  else if newBalance ≥ 50 then 2
                  else 1 }
            (true, { s1 with user_tokens := updateTokensRows s1.user_tokens userId newRow })

/-! ## Helper lemmas about the store model -/

theorem lookupTokens_append_self (l : List (String × UserTokens)) (u : String)
    (v : UserTokens) (h : lookupTokens l u = none) :
    lookupTokens (l ++ [(u, v)]) u = some v := by
  induction l with
  | nil => simp [lookupTokens]
  | cons p t ih =>
      by_cases hp : p.1 = u
      · simp [lookupTokens, hp] at h
      · simp only [List.cons_append, lookupTokens, hp, if_false] at h ⊢
        exact ih h

theorem lookupTokens_update_self (l : List (String × UserTokens)) (u : String)
    (v a : UserTokens) (h : lookupTokens l u = some a) :
    lookupTokens (updateTokensRows l u v) u = some v := by
  induction l with
  | nil => simp [lookupTokens] at h
  | cons p t ih =>
      by_cases hp : p.1 = u
      · simp [updateTokensRows, lookupTokens, hp]
      · simp only [lookupTokens, hp, if_false] at h
        simp only [updateTokensRows, hp, if_false, lookupTokens]
        exact ih h

theorem getTokens_of_recognized (ws : String)
    (h : ws = "small" ∨ ws = "medium" ∨ ws = "large") :
    getTokensForWasteSize ws = 5 ∨ getTokensForWasteSize ws = 15 ∨
      getTokensForWasteSize ws = 30 := by
  rcases h with h | h | h <;> subst h <;> simp [getTokensForWasteSize]

theorem getTokens_recognized_ne_zero (ws : String)
    (h : ws = "small" ∨ ws = "medium" ∨ ws = "large") :
    getTokensForWasteSize ws ≠ 0 := by
  rcases getTokens_of_recognized ws h with h5 | h15 | h30 <;> omega

/-! ## Authorization resolver (`src/utils/adminUtils.ts`) -/

/-- Outcome of one remote call through the client library: either it resolves
to a `{data, error}` pair (`ok data error`, with `error` recording whether the
error field is set) or it throws, which the source handles in a `catch`. -/
inductive DbResult (α : Type) where
  | ok : Option α → Bool → DbResult α
  | thrown : DbResult α
deriving DecidableEq, Repr

/-- The remote observations a single `checkUserIsAdmin` run makes: the current
session's email (absent when there is no session or no email), the
`admin_users` lookup outcome, and the `is_admin` remote-procedure outcome. -/
structure AdminCheckEnv where
  sessionEmail : Option String
  membership : DbResult Unit
  rpcIsAdmin : DbResult Bool
deriving DecidableEq, Repr

/-- `toLowerCase()` modelled as lowering each character of the string. -/
def lowerString (s : String) : String :=
  String.mk (s.data.map Char.toLower)

/-- The email check of `checkUserIsAdmin`:
`authData?.user?.email?.toLowerCase() === ADMIN_EMAIL.toLowerCase()`
(`undefined` on a missing email, hence false). -/
def emailMatchesAdmin (adminEmail : String) (sessionEmail : Option String) : Bool :=
  match sessionEmail with
  | some e => lowerString e == lowerString adminEmail
  | none => false

/-- `checkUserIsAdmin(userId)` from `adminUtils.ts`, with the configured
`ADMIN_EMAIL` passed as a parameter. `if (!userId) return false` guards the
whole body; the membership `catch` returns the email comparison again; the
remote-procedure `catch` falls through to the final `return false`. -/
def checkUserIsAdmin (adminEmail userId : String) (env : AdminCheckEnv) : Bool :=
  if userId = "" then false
  else if emailMatchesAdmin adminEmail env.sessionEmail then true
  else
    match env.membership with
    | DbResult.thrown => emailMatchesAdmin adminEmail env.sessionEmail
    | DbResult.ok adminData adminError =>
        if !adminError && adminData.isSome then true
        else
          match env.rpcIsAdmin with
          | DbResult.thrown => false
          | DbResult.ok isAdminData isAdminError =>
              if !isAdminError && isAdminData == some true then true else false

/-- The positive outcome of step 2 as the spec words it: a membership row was
found and the lookup reported no error. -/
def membershipFound : DbResult Unit → Bool
  | DbResult.ok d e => !e && d.isSome
  | DbResult.thrown => false

/-- The positive outcome of step 3 as the spec words it: the remote procedure
returned exactly `true` with no error. -/
def rpcTrue : DbResult Bool → Bool
  | DbResult.ok d e => !e && d == some true
  | DbResult.thrown => false

/-! ## Membership upsert (`addAdminUser` in `src/utils/dbUtils.ts`) -/

/-- Which remote calls of `addAdminUser` report an error. -/
structure MembershipFaults where
  checkError : Bool
  insertError : Bool
deriving DecidableEq, Repr

/-- A fault-free `addAdminUser` run. -/
def noMemFaults : MembershipFaults := ⟨false, false⟩

/-- Number of `admin_users` rows whose `user_id` equals `u`. -/
def memberCount : List String → String → Nat
  | [], _ => 0
  | r :: t, u => (if r = u then 1 else 0) + memberCount t u

/-- `.select('id').eq('user_id', u).maybeSingle()`: `none` models an error
(the client errors when more than one row matches); `some none` is a clean
miss, `some (some ())` a clean hit. -/
def maybeSingleMembership (rows : List String) (u : String) : Option (Option Unit) :=
  match memberCount rows u with
  | 0 => some none
  | 1 => some (some Unit.unit)
  | _ => none

/-- `addAdminUser(userId)` from `dbUtils.ts`: check for an existing row,
return true without writing on a hit, insert one row otherwise; any errored
call returns false and writes nothing. -/
def addAdminUser (userId : String) (f : MembershipFaults) (rows : List String) :
    Bool × List String :=
  match (if f.checkError then none else maybeSingleMembership rows userId) with
  | none => (false, rows)
  | some (some _) => (true, rows)
  | some none =>
      if f.insertError then (false, rows)
      else (true, rows ++ [userId])

theorem memberCount_append_self (rows : List String) (u : String) :
    memberCount (rows ++ [u]) u = memberCount rows u + 1 := by
  induction rows with
  | nil => simp [memberCount]
  | cons r t ih => simp [memberCount, ih]; omega

theorem getTokens_ne_zero_cases (ws : String) (h : getTokensForWasteSize ws ≠ 0) :
    getTokensForWasteSize ws = 5 ∨ getTokensForWasteSize ws = 15 ∨
      getTokensForWasteSize ws = 30 := by
  unfold getTokensForWasteSize at h ⊢
  split_ifs <;> simp_all

/-! ## Claim theorems -/

/-- Claim C1: `awardForReport` awards exactly 5/15/30 tokens for
`small`/`medium`/`large`; for every other waste-size string (including the
empty string) the award is 0, the call returns false, and the store is left
exactly as it was (no transaction inserted, no account row created or
mutated). -/
theorem award_token_mapping_and_unrecognized_noop :
    getTokensForWasteSize "small" = 5 ∧
    getTokensForWasteSize "medium" = 15 ∧
    getTokensForWasteSize "large" = 30 ∧
    ∀ ws : String, ws ≠ "small" → ws ≠ "medium" → ws ≠ "large" →
      getTokensForWasteSize ws = 0 ∧
      ∀ (u t : String) (f : DbFaults) (s : DbState),
        updateUserTokensForReport u ws t f s = (false, s) := by
  refine ⟨by decide, by decide, by decide, ?_⟩
  intro ws h1 h2 h3
  have hz : getTokensForWasteSize ws = 0 := by
    simp [getTokensForWasteSize, h1, h2, h3]
  exact ⟨hz, fun u t f s => by simp [updateUserTokensForReport, hz]⟩

/-- Witness for C1 at the unrecognized size `"huge"` of spec scenario C. -/
theorem award_token_mapping_and_unrecognized_noop_witness :
    getTokensForWasteSize "huge" = 0 ∧
    updateUserTokensForReport "u1" "huge" "x" noFaults ⟨[], []⟩ =
      (false, ⟨[], []⟩) := by
  have h := award_token_mapping_and_unrecognized_noop.2.2.2 "huge"
    (by decide) (by decide) (by decide)
  exact ⟨h.1, h.2 "u1" "x" noFaults ⟨[], []⟩⟩

/-- Claim C5: with a recognized waste size, if the ledger insert fails the
call returns false and the whole store — in particular the user's account
row — is exactly as it was before the call. -/
theorem failed_ledger_insert_no_account_touch
    (u ws t : String) (f : DbFaults) (s : DbState)
    (hws : ws = "small" ∨ ws = "medium" ∨ ws = "large")
    (hfail : f.transactionInsertError = true) :
    updateUserTokensForReport u ws t f s = (false, s) := by
  have hz := getTokens_recognized_ne_zero ws hws
  simp [updateUserTokensForReport, hz, hfail]

/-- Witness for C5: a small report whose ledger insert errors leaves an
existing account row untouched and returns false. -/
theorem failed_ledger_insert_no_account_touch_witness :
    updateUserTokensForReport "u1" "small" "x" ⟨true, false, false, false⟩
        ⟨[], [("u1", ⟨45, 1⟩)]⟩ =
      (false, ⟨[], [("u1", ⟨45, 1⟩)]⟩) :=
  failed_ledger_insert_no_account_touch "u1" "small" "x"
    ⟨true, false, false, false⟩ ⟨[], [("u1", ⟨45, 1⟩)]⟩ (Or.inl rfl) rfl

/-- Claim C9: with a recognized waste size and a succeeding ledger insert,
the appended ledger record has amount equal to the size's token award,
transaction type `earned`, source type `waste_report`, and a description
derived from the report title. -/
theorem award_ledger_record_shape
    (u ws t : String) (f : DbFaults) (s : DbState)
    (hws : ws = "small" ∨ ws = "medium" ∨ ws = "large")
    (hok : f.transactionInsertError = false) :
    (updateUserTokensForReport u ws t f s).2.transactions =
      s.transactions ++
        [{ user_id := u, amount := getTokensForWasteSize ws,
           description := "Waste report: " ++ t,
           transaction_type := "earned", source_type := "waste_report" }] := by
  have hz := getTokens_recognized_ne_zero ws hws
  unfold updateUserTokensForReport
  simp only [hz, if_false, hok, Bool.false_eq_true, ite_false]
  split
  · simp [insertTransaction]
  · split
    · split <;> simp [insertTransaction]
    · split <;> simp [insertTransaction]

/-- Witness for C9, spec scenario A: a new user's small report titled
"Beach cleanup" yields exactly one earned transaction of amount 5 carrying
the title. -/
theorem award_ledger_record_shape_witness :
    (updateUserTokensForReport "u1" "small" "Beach cleanup" noFaults
        ⟨[], []⟩).2.transactions =
      [{ user_id := "u1", amount := 5,
         description := "Waste report: Beach cleanup",
         transaction_type := "earned", source_type := "waste_report" }] := by
  have h := award_ledger_record_shape "u1" "small" "Beach cleanup" noFaults
    ⟨[], []⟩ (Or.inl rfl) rfl
  simpa using h

/-- Claim C2: a successful award with a recognized waste size onto an
existing account row with balance `b` leaves the row with balance
`b + tokens` and level recomputed by the top-down first-match thresholds
(`≥500 → 5`, `≥300 → 4`, `≥150 → 3`, `≥50 → 2`, else 1) on the new
balance. -/
theorem award_updates_existing_account
    (u ws t : String) (f : DbFaults) (s : DbState) (b l : Nat)
    (hws : ws = "small" ∨ ws = "medium" ∨ ws = "large")
    (hex : lookupTokens s.user_tokens u = some ⟨b, l⟩)
    (hsucc : (updateUserTokensForReport u ws t f s).1 = true) :
    lookupTokens (updateUserTokensForReport u ws t f s).2.user_tokens u =
      some ⟨b + getTokensForWasteSize ws,
            levelForBalance (b + getTokensForWasteSize ws)⟩ := by
  have hz := getTokens_recognized_ne_zero ws hws
  by_cases h1 : f.transactionInsertError
  · simp [updateUserTokensForReport, hz, h1] at hsucc
  · by_cases h2 : f.tokensFetchError
    · simp [updateUserTokensForReport, hz, h1, h2] at hsucc
    · by_cases h3 : f.tokensUpdateError
      · simp [updateUserTokensForReport, hz, h1, h2, h3, insertTransaction,
          hex] at hsucc
      · simp only [updateUserTokensForReport, hz, h1, h2, h3,
          insertTransaction] at hsucc ⊢
        simp only [hex] at hsucc ⊢
        simp only [Bool.false_eq_true, if_false, ite_false] at hsucc ⊢
        rw [lookupTokens_update_self s.user_tokens u _ _ hex]
        unfold levelForBalance
        rfl

/-- Witness for C2, spec scenario B: balance 45 plus a medium report gives
balance 60 and level 2. -/
theorem award_updates_existing_account_witness :
    lookupTokens (updateUserTokensForReport "u1" "medium" "x" noFaults
        ⟨[], [("u1", ⟨45, 1⟩)]⟩).2.user_tokens "u1" = some ⟨60, 2⟩ := by
  have h := award_updates_existing_account "u1" "medium" "x" noFaults
    ⟨[], [("u1", ⟨45, 1⟩)]⟩ 45 1 (Or.inr (Or.inl rfl)) (by decide) (by decide)
  rw [h]
  decide

/-- Claim C3: a successful award with a recognized waste size for a user with
no account row creates a row with balance equal to the token award and level
given by the same thresholds on that initial balance. On this path the source
computes the level as `tokenAmount >= 50 ? 2 : 1`, which coincides with the
thresholds for every reachable award (5, 15 or 30). -/
theorem award_creates_account
    (u ws t : String) (f : DbFaults) (s : DbState)
    (hws : ws = "small" ∨ ws = "medium" ∨ ws = "large")
    (habs : lookupTokens s.user_tokens u = none)
    (hsucc : (updateUserTokensForReport u ws t f s).1 = true) :
    lookupTokens (updateUserTokensForReport u ws t f s).2.user_tokens u =
      some ⟨getTokensForWasteSize ws,
            levelForBalance (getTokensForWasteSize ws)⟩ := by
  have hz := getTokens_recognized_ne_zero ws hws
  by_cases h1 : f.transactionInsertError
  · simp [updateUserTokensForReport, hz, h1] at hsucc
  · by_cases h2 : f.tokensFetchError
    · simp [updateUserTokensForReport, hz, h1, h2] at hsucc
    · by_cases h3 : f.tokensInsertError
      · simp [updateUserTokensForReport, hz, h1, h2, h3, insertTransaction,
          habs] at hsucc
      · simp only [updateUserTokensForReport, hz, h1, h2, h3,
          insertTransaction] at hsucc ⊢
        simp only [habs] at hsucc ⊢
        simp only [Bool.false_eq_true, if_false, ite_false] at hsucc ⊢
        rw [lookupTokens_append_self s.user_tokens u _ habs]
        rcases getTokens_of_recognized ws hws with h | h | h <;>
          rw [h] <;> decide

/-- Witness for C3, spec scenario A: a fresh user's small report creates the
account with balance 5 and level 1. -/
theorem award_creates_account_witness :
    lookupTokens (updateUserTokensForReport "u1" "small" "Beach cleanup"
        noFaults ⟨[], []⟩).2.user_tokens "u1" = some ⟨5, 1⟩ := by
  have h := award_creates_account "u1" "small" "Beach cleanup" noFaults
    ⟨[], []⟩ (Or.inl rfl) (by decide) (by decide)
  rw [h]
  decide

/-- Claim C8: after every successful award — on the create path and on the
update path alike — the stored level is the threshold function of the stored
balance, lies between 1 and 5, and that threshold function is monotone in the
balance; sample values: 49 → 1, 50 → 2, 149 → 2, 150 → 3, 300 → 4,
500 → 5. -/
theorem award_preserves_level_invariant
    (u ws t : String) (f : DbFaults) (s : DbState)
    (hsucc : (updateUserTokensForReport u ws t f s).1 = true) :
    (∃ a : UserTokens,
        lookupTokens (updateUserTokensForReport u ws t f s).2.user_tokens u =
          some a ∧
        a.level = levelForBalance a.balance ∧ 1 ≤ a.level ∧ a.level ≤ 5) ∧
    (∀ b1 b2 : Nat, b1 ≤ b2 → levelForBalance b1 ≤ levelForBalance b2) ∧
    levelForBalance 49 = 1 ∧ levelForBalance 50 = 2 ∧ levelForBalance 149 = 2 ∧
    levelForBalance 150 = 3 ∧ levelForBalance 300 = 4 ∧
    levelForBalance 500 = 5 := by
  refine ⟨?_, ?_, by decide, by decide, by decide, by decide, by decide,
    by decide⟩
  · have hz : getTokensForWasteSize ws ≠ 0 := by
      intro h0
      simp [updateUserTokensForReport, h0] at hsucc
    have htok := getTokens_ne_zero_cases ws hz
    by_cases h1 : f.transactionInsertError
    · simp [updateUserTokensForReport, hz, h1] at hsucc
    · by_cases h2 : f.tokensFetchError
      · simp [updateUserTokensForReport, hz, h1, h2] at hsucc
      · cases hlook : lookupTokens s.user_tokens u with
        | none =>
            by_cases h3 : f.tokensInsertError
            · simp [updateUserTokensForReport, hz, h1, h2, h3,
                insertTransaction, hlook] at hsucc
            · refine ⟨⟨getTokensForWasteSize ws,
                if getTokensForWasteSize ws ≥ 50 then 2 else 1⟩, ?_, ?_, ?_, ?_⟩
              · simp only [updateUserTokensForReport, hz, h1, h2, h3,
                  insertTransaction, hlook, Bool.false_eq_true, if_false,
                  ite_false]
                exact lookupTokens_append_self s.user_tokens u _ hlook
              · rcases htok with h | h | h <;> rw [h] <;> decide
              · rcases htok with h | h | h <;> rw [h] <;> decide
              · rcases htok with h | h | h <;> rw [h] <;> decide
        | some a0 =>
            by_cases h4 : f.tokensUpdateError
            · simp [updateUserTokensForReport, hz, h1, h2, h4,
                insertTransaction, hlook] at hsucc
            · refine ⟨⟨a0.balance + getTokensForWasteSize ws,
                levelForBalance (a0.balance + getTokensForWasteSize ws)⟩,
                ?_, ?_, ?_, ?_⟩
              · simp only [updateUserTokensForReport, hz, h1, h2, h4,
                  insertTransaction, hlook, Bool.false_eq_true, if_false,
                  ite_false]
                rw [lookupTokens_update_self s.user_tokens u _ _ hlook]
                unfold levelForBalance
                rfl
              · rfl
              · dsimp only
                unfold levelForBalance
                split_ifs <;> omega
              · dsimp only
                unfold levelForBalance
                split_ifs <;> omega
  · intro b1 b2 hle
    unfold levelForBalance
    split_ifs <;> omega

/-- Witness for C8 at a concrete successful award (small report by a fresh
user). -/
theorem award_preserves_level_invariant_witness :
    (∃ a : UserTokens,
        lookupTokens (updateUserTokensForReport "u1" "small" "x" noFaults
            ⟨[], []⟩).2.user_tokens "u1" = some a ∧
        a.level = levelForBalance a.balance ∧ 1 ≤ a.level ∧ a.level ≤ 5) ∧
    (∀ b1 b2 : Nat, b1 ≤ b2 → levelForBalance b1 ≤ levelForBalance b2) ∧
    levelForBalance 49 = 1 ∧ levelForBalance 50 = 2 ∧ levelForBalance 149 = 2 ∧
    levelForBalance 150 = 3 ∧ levelForBalance 300 = 4 ∧
    levelForBalance 500 = 5 :=
  award_preserves_level_invariant "u1" "small" "x" noFaults ⟨[], []⟩
    (by decide)

/-- Claim C10: the empty-string userId makes `checkUserIsAdmin` return false
immediately, whatever the session email, membership lookup and remote
procedure would report — even when the session email equals the configured
administrator email. -/
theorem empty_userId_never_admin (adminEmail : String) (env : AdminCheckEnv) :
    checkUserIsAdmin adminEmail "" env = false := by
  simp [checkUserIsAdmin]

/-- Claim C4 counterexample: two concrete inputs refute the claim as stated.
With the empty userId the email check is positive yet the result is false
(the guard returns before any check); and with a thrown membership lookup the
remote procedure answers true yet the result is false (the catch returns the
email comparison without consulting the procedure). -/
theorem admin_check_order_counterexample :
    (emailMatchesAdmin "rububasumatarymionju56@gmail.com"
        (some "rububasumatarymionju56@gmail.com") = true ∧
      checkUserIsAdmin "rububasumatarymionju56@gmail.com" ""
        ⟨some "rububasumatarymionju56@gmail.com",
         DbResult.ok none false, DbResult.ok none false⟩ = false) ∧
    (rpcTrue (DbResult.ok (some true) false) = true ∧
      checkUserIsAdmin "rububasumatarymionju56@gmail.com" "u1"
        ⟨none, DbResult.thrown, DbResult.ok (some true) false⟩ = false) := by
  decide

/-- Claim C4 (amended): for every non-empty userId whose membership lookup
does not throw, `checkUserIsAdmin` returns true exactly when one of the three
ordered checks succeeds — the session email case-insensitively equals the
configured administrator email (regardless of membership-table state), or a
membership row is found without error, or the remote procedure returns
exactly true without error — and false when none succeeds. -/
theorem admin_check_order_amended (adminEmail userId : String)
    (env : AdminCheckEnv) (hne : userId ≠ "")
    (hnt : env.membership ≠ DbResult.thrown) :
    checkUserIsAdmin adminEmail userId env =
      (emailMatchesAdmin adminEmail env.sessionEmail ||
        membershipFound env.membership || rpcTrue env.rpcIsAdmin) := by
  cases hm : env.membership with
  | thrown => exact absurd hm hnt
  | ok d e =>
      cases hr : env.rpcIsAdmin with
      | thrown =>
          by_cases hmail : emailMatchesAdmin adminEmail env.sessionEmail <;>
            by_cases hfound : (!e && d.isSome) = true <;>
              simp [checkUserIsAdmin, hne, hm, hr, hmail, hfound,
                membershipFound, rpcTrue]
      | ok d2 e2 =>
          by_cases hmail : emailMatchesAdmin adminEmail env.sessionEmail <;>
            by_cases hfound : (!e && d.isSome) = true <;>
              by_cases hrpc : (!e2 && d2 == some true) = true <;>
                simp [checkUserIsAdmin, hne, hm, hr, hmail, hfound, hrpc,
                  membershipFound, rpcTrue]

/-- Witness for the amended C4: a non-empty userId with no email match and a
clean membership hit resolves to true. -/
theorem admin_check_order_amended_witness :
    checkUserIsAdmin "rububasumatarymionju56@gmail.com" "u1"
      ⟨none, DbResult.ok (some Unit.unit) false, DbResult.ok none false⟩ =
      true := by
  have h := admin_check_order_amended "rububasumatarymionju56@gmail.com" "u1"
    ⟨none, DbResult.ok (some Unit.unit) false, DbResult.ok none false⟩
    (by decide) (by decide)
  rw [h]
  decide

/-- Claim C6: for a non-empty userId with no email match, a membership lookup
that fails with a returned error does not abort the resolution — the result
is exactly the remote-procedure decision, so a procedure answering exactly
true without error yields true — and a thrown failure while attempting the
remote procedure is swallowed into false rather than propagated. -/
theorem membership_error_falls_through
    (adminEmail userId : String) (env : AdminCheckEnv) (d : Option Unit)
    (hne : userId ≠ "")
    (hmail : emailMatchesAdmin adminEmail env.sessionEmail = false)
    (herr : env.membership = DbResult.ok d true) :
    checkUserIsAdmin adminEmail userId env = rpcTrue env.rpcIsAdmin ∧
    (env.rpcIsAdmin = DbResult.thrown →
      checkUserIsAdmin adminEmail userId env = false) := by
  constructor
  · cases hr : env.rpcIsAdmin with
    | thrown => simp [checkUserIsAdmin, hne, hmail, herr, hr, rpcTrue]
    | ok d2 e2 =>
        by_cases hrpc : (!e2 && d2 == some true) = true <;>
          simp [checkUserIsAdmin, hne, hmail, herr, hr, hrpc, rpcTrue]
  · intro hthrown
    simp [checkUserIsAdmin, hne, hmail, herr, hthrown]

/-- Witness for C6: with an errored membership lookup and a remote procedure
answering true, the resolver still grants access. -/
theorem membership_error_falls_through_witness :
    checkUserIsAdmin "rububasumatarymionju56@gmail.com" "u1"
      ⟨none, DbResult.ok none true, DbResult.ok (some true) false⟩ = true := by
  have h := membership_error_falls_through "rububasumatarymionju56@gmail.com"
    "u1" ⟨none, DbResult.ok none true, DbResult.ok (some true) false⟩ none
    (by decide) (by decide) rfl
  rw [h.1]
  decide

/-- Claim C7 counterexample: `addAdminUser` returns false when the existence
check errors even though the insert did not error — refuting "returns false
only when the insert (write) errors". -/
theorem ensure_membership_counterexample :
    (⟨true, false⟩ : MembershipFaults).insertError = false ∧
    addAdminUser "u1" ⟨true, false⟩ [] = (false, []) := by
  decide

/-- Claim C7 (amended): `addAdminUser` is an idempotent upsert — with the at
most one row the table invariant provides, an existing row yields true with
no write, a missing row yields true after inserting exactly one row, and two
sequential fault-free calls leave exactly one row with both returning true —
but it returns false whenever the existence check errs (including the
single-row lookup failing on duplicate rows) or the insert errs, not only on
an insert error. -/
theorem ensure_membership_amended (u : String) (rows : List String) :
    (memberCount rows u = 1 → addAdminUser u noMemFaults rows = (true, rows)) ∧
    (memberCount rows u = 0 →
      addAdminUser u noMemFaults rows = (true, rows ++ [u])) ∧
    (∀ (f : MembershipFaults) (rows2 : List String),
      (addAdminUser u f rows2).1 = false →
      f.checkError = true ∨ f.insertError = true ∨ 2 ≤ memberCount rows2 u) ∧
    (memberCount rows u ≤ 1 →
      (addAdminUser u noMemFaults rows).1 = true ∧
      (addAdminUser u noMemFaults (addAdminUser u noMemFaults rows).2).1 =
        true ∧
      memberCount
        (addAdminUser u noMemFaults
          (addAdminUser u noMemFaults rows).2).2 u = 1) := by
  refine ⟨?_, ?_, ?_, ?_⟩
  · intro h1
    simp [addAdminUser, maybeSingleMembership, h1, noMemFaults]
  · intro h0
    simp [addAdminUser, maybeSingleMembership, h0, noMemFaults]
  · intro f rows2 hres
    by_cases hc : f.checkError
    · exact Or.inl hc
    · rcases hcount : memberCount rows2 u with _ | n
      · by_cases hi : f.insertError
        · exact Or.inr (Or.inl hi)
        · simp [addAdminUser, maybeSingleMembership, hcount, hc, hi] at hres
      · rcases n with _ | m
        · simp [addAdminUser, maybeSingleMembership, hcount, hc] at hres
        · exact Or.inr (Or.inr (by omega))
  · intro hle
    rcases hcount : memberCount rows u with _ | n
    · have hfirst : addAdminUser u noMemFaults rows = (true, rows ++ [u]) := by
        simp [addAdminUser, maybeSingleMembership, hcount, noMemFaults]
      have hone : memberCount (rows ++ [u]) u = 1 := by
        rw [memberCount_append_self, hcount]
      have hsecond : addAdminUser u noMemFaults (rows ++ [u]) =
          (true, rows ++ [u]) := by
        simp [addAdminUser, maybeSingleMembership, hone, noMemFaults]
      rw [hfirst]
      exact ⟨rfl, by rw [hsecond], by rw [hsecond]; exact hone⟩
    · rcases n with _ | m
      · have hfirst : addAdminUser u noMemFaults rows = (true, rows) := by
          simp [addAdminUser, maybeSingleMembership, hcount, noMemFaults]
        rw [hfirst]
        exact ⟨rfl, by rw [hfirst], by rw [hfirst]; exact hcount⟩
      · rw [hcount] at hle
        omega

/-- Witness for the amended C7: from an empty table, the first call inserts
the one row and the second call is a no-op success. -/
theorem ensure_membership_amended_witness :
    addAdminUser "u1" noMemFaults [] = (true, ["u1"]) ∧
    addAdminUser "u1" noMemFaults ["u1"] = (true, ["u1"]) := by
  refine ⟨(ensure_membership_amended "u1" []).2.1 rfl, ?_⟩
  have h := (ensure_membership_amended "u1" ["u1"]).1 (by decide)
  exact h

end GreenGen
